import Mathlib

/-!
Verification development for the monitor refresh and price-tracking engine
of `src/qantas-dashboard.ts`.

The TypeScript source is shallowly embedded: JSON documents become lists,
JavaScript objects become association lists over `String` keys, machine
numbers become `ℚ` (the numeric fields carried by the engine are exact
decimals: mileage points, minor-unit tax amounts, fares), and the
side-effecting handlers become pure state-passing functions whose inputs
include the documents they read and whose outputs include the documents
they write.  Fallible leg fetches are passed in as an explicit outcome
value.  Timestamps produced by `new Date().toISOString()` are passed in as
a `now : String` parameter.
-/

namespace QantasDashboard

/-- A JavaScript/JSON field value as read out of a raw availability record.
`jnull` stands for a missing field (`undefined`).  The award-search API
delivers numbers, strings and booleans; numeric strings are not modelled
separately because the engine only ever meets plain numbers in the numeric
fields. -/
inductive JVal where
  | jnum (q : ℚ)
  | jstr (s : String)
  | jbool (b : Bool)
  | jnull
deriving DecidableEq, Repr

/-- JavaScript truthiness of a field value, as used by `if (available && ...)`. -/
def jsTruthy : JVal → Bool
  | .jnum q => q != 0
  | .jstr s => s != ""
  | .jbool b => b
  | .jnull => false

/-- The defensive numeric read `parseFloat(v as string) || (v as number) || 0`:
a number passes through, anything else degrades to `0`. -/
def jsNumOr0 : JVal → ℚ
  | .jnum q => q
  | _ => 0

/-- The defensive string read `(v as string) || fallback` collapsed to a plain
string, with `""` standing for a missing value (both are falsy). -/
def jsStrOr0 : JVal → String
  | .jstr s => s
  | _ => ""

/-- One directional search window (source interface `Leg`). -/
structure Leg where
  origin : String
  destination : String
  dateFrom : String
  dateTo : String
deriving DecidableEq, Repr

/-- Source interface `LowestRecord` (awards channel).  The optional numeric
and boolean fields are always written by the engine, so they are embedded as
plain fields. -/
structure LowestRecord where
  points : ℚ
  outboundDate : String
  returnDate : String
  seenAt : String
  totalTaxes : ℚ
  taxesCurrency : String
  isDirect : Bool
deriving DecidableEq, Repr

/-- Source interface `CashRecord` (cash channel). -/
structure CashRecord where
  aud : ℚ
  outboundDate : String
  returnDate : String
  seenAt : String
  isDirect : Bool
deriving DecidableEq, Repr

/-- Source interface `NormalizedFlight`. -/
structure NormalizedFlight where
  Date : String
  cabin : String
  MileageCost : ℚ
  RemainingSeats : ℚ
  IsDirect : Bool
  Airlines : String
  TaxesCurrency : String
  TotalTaxes : ℚ
deriving DecidableEq, Repr

/-- Source interface `Monitor`.  The TypeScript field `return` is embedded as
`returnLeg` (`return` is reserved in Lean).  Optional fields are `Option`;
`none` is a deleted/absent field. -/
structure Monitor where
  id : String
  label : String
  cabins : List String
  source : Option String
  availType : Option String
  outbound : Leg
  returnLeg : Leg
  createdAt : String
  lastChecked : Option String
  currentCombined : Option (List (String × LowestRecord))
  lowestCombined : Option (List (String × LowestRecord))
  knownSlots : Option (List String)
  lastOutbound : Option (List NormalizedFlight)
  lastReturn : Option (List NormalizedFlight)
  currentCash : Option (List (String × CashRecord))
  lowestCash : Option (List (String × CashRecord))
  cashPending : Option Bool
  cashRequestedAt : Option String
deriving DecidableEq, Repr

/-- Source interface `PendingAlert`, one appended batch in `alerts-pending.json`. -/
structure PendingAlert where
  monitorId : String
  monitorLabel : String
  messages : List String
  createdAt : String
deriving DecidableEq, Repr

/-- One entry of the shared cash-request document `cash-requests.json`. -/
structure CashRequest where
  monitorId : String
  label : String
  outbound : Leg
  returnLeg : Leg
  cabins : List String
  requestedAt : Option String
deriving DecidableEq, Repr

/-- One entry of the shared cash-result document `cash-results.json`.
`checkedAt` is optional as in the source (the poll falls back to now);
`prices` holds the entries of the raw price object in insertion order. -/
structure CashResultEntry where
  monitorId : String
  checkedAt : Option String
  prices : List (String × CashRecord)
deriving DecidableEq, Repr

/-- A raw per-date availability record from the award-search API: a
string-keyed field map, `jnull` for absent keys. -/
structure RawRecord where
  fields : String → JVal

-- ── JavaScript object / set primitives ─────────────────────────

/-- Property lookup on a JavaScript object embedded as an association list:
the first entry with the key wins (object keys are unique in practice). -/
def lookupStr {α : Type} : List (String × α) → String → Option α
  | [], _ => none
  | (k1, v) :: rest, k => if k1 = k then some v else lookupStr rest k

/-- Property assignment `obj[k] = v` on a JavaScript object: replace the
value in place when the key exists, append otherwise. -/
def objInsert {α : Type} : List (String × α) → String → α → List (String × α)
  | [], k, v => [(k, v)]
  | (k1, v1) :: rest, k, v =>
      if k1 = k then (k1, v) :: rest else (k1, v1) :: objInsert rest k v

/-- `new Set(l)` followed by spreading back to an array: duplicates removed,
first occurrence kept, order preserved. -/
def jsSetList : List String → List String
  | [] => []
  | x :: xs => x :: (jsSetList xs).filter (fun y => y ≠ x)

-- ── Flight normalizer ──────────────────────────────────────────

/-- Source constant `CABIN_CODES`: cabin name to one-letter code. -/
def CABIN_CODES : List (String × String) :=
  [("business", "J"), ("premium", "W"), ("economy", "Y"), ("first", "F")]

/-- Source constant `CODE_LABELS`: one-letter code to display label. -/
def CODE_LABELS : List (String × String) :=
  [("J", "Business"), ("W", "Prem Eco"), ("Y", "Economy"), ("F", "First")]

/-- `CABIN_CODES[c] ?? c.toUpperCase()`: an unknown cabin label degrades to
its own uppercased form. -/
def cabinCode (c : String) : String :=
  (lookupStr CABIN_CODES c).getD c.toUpper

/-- `CODE_LABELS[code] ?? code`. -/
def codeLabel (code : String) : String :=
  (lookupStr CODE_LABELS code).getD code

/-- The field-name suffix selected by the availability mode: the `any` mode
reads the parallel `Raw` field family, `rewards` the plain one. -/
def availSuffix (availType : String) : String :=
  if availType = "any" then "Raw" else ""

/-- The normalized entry built for one raw record and one cabin code inside
`normalizeFlights` (the body of the `result.push({...})`). -/
def mkNormalized (f : RawRecord) (code sfx : String) : NormalizedFlight :=
  let mileage := jsNumOr0 (f.fields (code ++ "MileageCost" ++ sfx))
  let directMileage := jsNumOr0 (f.fields (code ++ "DirectMileageCost" ++ sfx))
  { Date := jsStrOr0 (f.fields "Date")
    cabin := code
    MileageCost := mileage
    RemainingSeats := jsNumOr0 (f.fields (code ++ "RemainingSeats" ++ sfx))
    IsDirect := decide (0 < directMileage ∧ directMileage = mileage)
    Airlines := jsStrOr0 (f.fields (code ++ "Airlines" ++ sfx))
    TaxesCurrency := jsStrOr0 (f.fields "TaxesCurrency")
    TotalTaxes := jsNumOr0 (f.fields (code ++ "TotalTaxes" ++ sfx)) / 100 }

/-- Source function `normalizeFlights`: for each raw record and requested
cabin, emit a normalized entry when the mode-selected availability flag is
truthy and the mode-selected mileage cost is strictly positive; sort the
result ascending by date.  The JavaScript stable sort with
`localeCompare` is modelled by `mergeSort` on the string order (the date
strings are plain ISO dates, where the two orders agree). -/
def normalizeFlights (raw : List RawRecord) (cabins : List String)
    (availType : String) : List NormalizedFlight :=
  let codes := cabins.map cabinCode
  let sfx := availSuffix availType
  let result := raw.flatMap fun f =>
    codes.filterMap fun code =>
      if jsTruthy (f.fields (code ++ "Available" ++ sfx))
          && decide (0 < jsNumOr0 (f.fields (code ++ "MileageCost" ++ sfx)))
      then some (mkNormalized f code sfx)
      else none
  result.mergeSort fun a b => decide (a.Date ≤ b.Date)

-- ── Cheapest-entry selection ───────────────────────────────────

/-- `list.sort((a, b) => a.MileageCost - b.MileageCost)[0]`: the first entry
attaining the minimal cost (the JavaScript sort is stable, so the head of
the sorted list is the first minimal entry of the original). -/
def bestBy {α : Type} (f : α → ℚ) : List α → Option α
  | [] => none
  | x :: xs =>
      match bestBy f xs with
      | none => some x
      | some y => if f x ≤ f y then some x else some y

/-- Minimum of a list of rationals (`none` on the empty list). -/
def minQ : List ℚ → Option ℚ
  | [] => none
  | x :: xs =>
      match minQ xs with
      | none => some x
      | some y => some (min x y)

-- ── Lowest-price and slot tracker (refreshMonitor) ─────────────

/-- The composite key for one observed availability slot:
`date|cabin|direction`. -/
def slotKey (f : NormalizedFlight) (dir : String) : String :=
  f.Date ++ "|" ++ f.cabin ++ "|" ++ dir

/-- The new-slot alert line pushed for a flight not yet in `knownSlots`
(number formatting via `toLocaleString` is abstracted to `toString`). -/
def slotAlert (dirWord : String) (f : NormalizedFlight) : String :=
  "New " ++ dirWord ++ " " ++ codeLabel f.cabin ++ " available: " ++ f.Date
    ++ " for " ++ toString f.MileageCost ++ " pts"

/-- The per-cabin historical-low comparison of `refreshMonitor`: replace the
stored record and push one alert line when there is no prior record or the
new combined value is strictly lower; otherwise leave the map untouched and
push nothing. -/
def awardLowestStep (lowestCombined : List (String × LowestRecord))
    (code : String) (r : LowestRecord) :
    List (String × LowestRecord) × List String :=
  match lookupStr lowestCombined code with
  | none =>
      (objInsert lowestCombined code r,
       ["New lowest " ++ codeLabel code ++ " round-trip: " ++ toString r.points
         ++ " pts (first record) — out " ++ r.outboundDate ++ " + ret " ++ r.returnDate])
  | some prev =>
      if r.points < prev.points then
        (objInsert lowestCombined code r,
         ["New lowest " ++ codeLabel code ++ " round-trip: " ++ toString r.points
           ++ " pts (was " ++ toString prev.points ++ ") — out " ++ r.outboundDate
           ++ " + ret " ++ r.returnDate])
      else (lowestCombined, [])

/-- The current combined record computed by `refreshMonitor` for one cabin
code: `some` exactly when both legs have at least one entry for the cabin,
carrying cheapest-outbound plus cheapest-return cost, both dates, summed
taxes, the preferred currency, and the both-legs-direct flag. -/
def cabinRecord (outbound ret : List NormalizedFlight) (now code : String) :
    Option LowestRecord :=
  match bestBy (fun f => f.MileageCost) (outbound.filter (fun f => f.cabin == code)),
        bestBy (fun f => f.MileageCost) (ret.filter (fun f => f.cabin == code)) with
  | some bestOut, some bestRet =>
      some
        { points := bestOut.MileageCost + bestRet.MileageCost
          outboundDate := bestOut.Date
          returnDate := bestRet.Date
          seenAt := now
          totalTaxes := bestOut.TotalTaxes + bestRet.TotalTaxes
          taxesCurrency :=
            if bestOut.TaxesCurrency ≠ "" then bestOut.TaxesCurrency
            else if bestRet.TaxesCurrency ≠ "" then bestRet.TaxesCurrency
            else "AUD"
          isDirect := bestOut.IsDirect && bestRet.IsDirect }
  | _, _ => none

/-- One iteration of the per-cabin loop of `refreshMonitor`, threading the
`(currentCombined, lowestCombined, alerts)` state: skip the cabin when
either leg lacks an entry (`if (!bestOut || !bestRet) continue`), otherwise
store the current record and run the historical-low comparison. -/
def refreshCabinStep (outbound ret : List NormalizedFlight) (now : String)
    (st : List (String × LowestRecord) × List (String × LowestRecord) × List String)
    (code : String) :
    List (String × LowestRecord) × List (String × LowestRecord) × List String :=
  match cabinRecord outbound ret now code with
  | none => st
  | some r =>
      let p := awardLowestStep st.2.1 code r
      (objInsert st.1 code r, p.1, st.2.2 ++ p.2)

/-- Source function `refreshMonitor`, with the two leg fetches already
resolved into normalized flight lists: detect new slots, compute current and
historical-low combined records per cabin, and return the updated monitor
together with the alert lines of this refresh. -/
def refreshMonitor (monitor : Monitor) (outbound ret : List NormalizedFlight)
    (now : String) : Monitor × List String :=
  let known := monitor.knownSlots.getD []
  let outNew := outbound.filter fun f => !(known.contains (slotKey f "out"))
  let retNew := ret.filter fun f => !(known.contains (slotKey f "ret"))
  let newSlots := outNew.map (fun f => slotKey f "out")
    ++ retNew.map (fun f => slotKey f "ret")
  let slotAlerts := outNew.map (slotAlert "outbound") ++ retNew.map (slotAlert "return")
  let codes := monitor.cabins.map cabinCode
  let st := codes.foldl (refreshCabinStep outbound ret now)
    ([], monitor.lowestCombined.getD [], [])
  ({ monitor with
      lastChecked := some now
      lastOutbound := some outbound
      lastReturn := some ret
      currentCombined := some st.1
      lowestCombined := some st.2.1
      knownSlots := some (jsSetList known ++ newSlots) },
   slotAlerts ++ st.2.2)

-- ── Cash-price handshake coordinator ───────────────────────────

/-- Source constant `CASH_CABIN_CODES` (from `processCashResults`). -/
def CASH_CABIN_CODES : List (String × String) :=
  [("business", "J"), ("premium", "W"), ("economy", "Y"), ("first", "F")]

/-- Source constant `CASH_CABIN_LABELS` (from `processCashResults`). -/
def CASH_CABIN_LABELS : List (String × String) :=
  [("J", "Business"), ("W", "Prem Eco"), ("Y", "Economy"), ("F", "First")]

/-- Source function `writeCashRequest`: drop any existing entry keyed by the
monitor id and append a fresh one built from the monitor. -/
def writeCashRequest (requests : List CashRequest) (monitor : Monitor) :
    List CashRequest :=
  requests.filter (fun r => r.monitorId ≠ monitor.id)
    ++ [{ monitorId := monitor.id
          label := monitor.label
          outbound := monitor.outbound
          returnLeg := monitor.returnLeg
          cabins := monitor.cabins
          requestedAt := monitor.cashRequestedAt }]

/-- The cash branch of the full refresh cycle (`refreshAll`): re-queue a
request only when none is pending. -/
def cashCycleStep (monitor : Monitor) (requests : List CashRequest)
    (now : String) : Monitor × List CashRequest :=
  if monitor.cashPending.getD false then (monitor, requests)
  else
    let m1 := { monitor with cashPending := some true, cashRequestedAt := some now }
    (m1, writeCashRequest requests m1)

/-- The cash branch of the on-demand handler `POST /api/monitors/:id/refresh`:
unconditionally mark pending, stamp the request time and rewrite the entry in
the request document. -/
def refreshOneCashEndpoint (monitor : Monitor) (requests : List CashRequest)
    (now : String) : Monitor × List CashRequest :=
  let m1 := { monitor with cashPending := some true, cashRequestedAt := some now }
  (m1, writeCashRequest requests m1)

/-- The checkedAt fallback read of the poll loop: a missing or empty
timestamp falls back to now. -/
def orNow (checkedAt : Option String) (now : String) : String :=
  match checkedAt with
  | some s => if s ≠ "" then s else now
  | none => now

/-- Key normalization of the raw price object in `processCashResults`:
rebuild the object with cabin names mapped to one-letter codes. -/
def normalizePrices (raw : List (String × CashRecord)) :
    List (String × CashRecord) :=
  raw.foldl
    (fun acc kv =>
      objInsert acc ((lookupStr CASH_CABIN_CODES kv.1).getD kv.1.toUpper) kv.2)
    []

/-- The per-cabin historical-low comparison of `processCashResults`: same
strictly-lower-replaces rule as the awards channel, keyed by the fare. -/
def cashLowestStep (lowestCash : List (String × CashRecord)) (code : String)
    (price : CashRecord) : List (String × CashRecord) × List String :=
  match lookupStr lowestCash code with
  | none =>
      (objInsert lowestCash code price,
       ["New lowest " ++ (lookupStr CASH_CABIN_LABELS code).getD code
         ++ " cash fare: AUD $" ++ toString price.aud ++ " (first record) — out "
         ++ price.outboundDate ++ " · ret " ++ price.returnDate])
  | some prev =>
      if price.aud < prev.aud then
        (objInsert lowestCash code price,
         ["New lowest " ++ (lookupStr CASH_CABIN_LABELS code).getD code
           ++ " cash fare: AUD $" ++ toString price.aud ++ " (was AUD $"
           ++ toString prev.aud ++ ") — out " ++ price.outboundDate
           ++ " · ret " ++ price.returnDate])
      else (lowestCash, [])

/-- The per-monitor body of the `processCashResults` loop, applied to the
matched cash monitor: clear the pending flag, set last-checked, fold the
normalized prices into current and lowest maps, and collect alert lines. -/
def applyCashEntry (monitor : Monitor) (entry : CashResultEntry) (now : String) :
    Monitor × List String :=
  let prices := normalizePrices entry.prices
  let st := prices.foldl
    (fun (st : List (String × CashRecord) × List (String × CashRecord) × List String) kv =>
      let p := cashLowestStep st.2.1 kv.1 kv.2
      (objInsert st.1 kv.1 kv.2, p.1, st.2.2 ++ p.2))
    (monitor.currentCash.getD [], monitor.lowestCash.getD [], [])
  ({ monitor with
      cashPending := some false
      lastChecked := some (orNow entry.checkedAt now)
      currentCash := some st.1
      lowestCash := some st.2.1 }, st.2.2)

/-- The find-by-id step of the poll loop followed by the loop body: locate
the first monitor carrying the entry id; when it is a cash monitor, apply
the result (in place) and report `changed`; otherwise skip. -/
def processOneResult : List Monitor → CashResultEntry → String →
    List Monitor × List PendingAlert × Bool
  | [], _, _ => ([], [], false)
  | m :: rest, entry, now =>
      if m.id = entry.monitorId then
        if m.source = some "cash" then
          let p := applyCashEntry m entry now
          (p.1 :: rest,
           if p.2 ≠ [] then [⟨m.id, m.label, p.2, now⟩] else [],
           true)
        else (m :: rest, [], false)
      else
        let p := processOneResult rest entry now
        (m :: p.1, p.2.1, p.2.2)

/-- The outcome of one cash poll: the monitor document, the result document
and the alert batches appended during the poll. -/
structure CashPollResult where
  monitors : List Monitor
  results : List CashResultEntry
  alerts : List PendingAlert
deriving DecidableEq, Repr

/-- Source function `processCashResults`: a missing, corrupt or empty result
document is a no-op; otherwise every entry is applied to its matching cash
monitor and, only when at least one entry was applied (`changed`), the
monitor document is rewritten and the result document reset to `[]`. -/
def processCashResults (resultsDoc : List CashResultEntry)
    (monitors : List Monitor) (now : String) : CashPollResult :=
  if resultsDoc = [] then ⟨monitors, resultsDoc, []⟩
  else
    let st := resultsDoc.foldl
      (fun (st : List Monitor × List PendingAlert × Bool) entry =>
        let p := processOneResult st.1 entry now
        (p.1, st.2.1 ++ p.2.1, st.2.2 || p.2.2))
      (monitors, [], false)
    if st.2.2 then ⟨st.1, [], st.2.1⟩ else ⟨st.1, resultsDoc, st.2.1⟩

-- ── Refresh scheduler ──────────────────────────────────────────

/-- The resolved outcome of the parallel pair of leg fetches for one awards
monitor: both legs normalized, or a failure (30-second timeout abort or
non-success HTTP status) that rejects the whole refresh. -/
inductive FetchOutcome where
  | ok (outbound ret : List NormalizedFlight)
  | fail
deriving DecidableEq, Repr

/-- The outcome of one full refresh cycle: the monitor document, the cash
request document, and the alert batches appended during the cycle. -/
structure RefreshAllResult where
  monitors : List Monitor
  requests : List CashRequest
  alerts : List PendingAlert
deriving DecidableEq, Repr

/-- Source function `refreshAll`: walk the monitors in order; a cash monitor
is handed to the outbound-request step; an awards monitor is refreshed, its
nonempty alert list appended as one batch, and a failed fetch is caught,
leaving that monitor untouched while the cycle proceeds. -/
def refreshAll : List Monitor → (Monitor → FetchOutcome) → List CashRequest →
    String → RefreshAllResult
  | [], _, requests, _ => ⟨[], requests, []⟩
  | m :: rest, fetch, requests, now =>
      if m.source = some "cash" then
        let p := cashCycleStep m requests now
        let r := refreshAll rest fetch p.2 now
        ⟨p.1 :: r.monitors, r.requests, r.alerts⟩
      else
        match fetch m with
        | .fail =>
            let r := refreshAll rest fetch requests now
            ⟨m :: r.monitors, r.requests, r.alerts⟩
        | .ok outbound ret =>
            let p := refreshMonitor m outbound ret now
            let r := refreshAll rest fetch requests now
            ⟨p.1 :: r.monitors, r.requests,
             (if p.2 ≠ [] then [⟨m.id, m.label, p.2, now⟩] else []) ++ r.alerts⟩

-- ── Monitor management: PUT /api/monitors/:id ──────────────────

/-- The request body of the edit endpoint.  `source` and `availType` are
optional and default as in the handler. -/
structure PutBody where
  label : String
  cabins : List String
  source : Option String
  availType : Option String
  outbound : Leg
  returnLeg : Leg
deriving DecidableEq, Repr

/-- `JSON.stringify(cabins.sort())`: the cabin list in the default JavaScript
sort order.  Stringify equality of two such string arrays is list equality. -/
def sortedCabins (cabins : List String) : List String :=
  cabins.mergeSort fun a b => decide (a ≤ b)

/-- The `coreChanged` test of the edit handler: any change to a leg field,
to the effective availability mode, or to the sorted cabin list. -/
def coreChanged (body : PutBody) (monitor : Monitor) : Bool :=
  body.outbound.origin != monitor.outbound.origin
  || body.outbound.destination != monitor.outbound.destination
  || body.outbound.dateFrom != monitor.outbound.dateFrom
  || body.outbound.dateTo != monitor.outbound.dateTo
  || body.returnLeg.origin != monitor.returnLeg.origin
  || body.returnLeg.destination != monitor.returnLeg.destination
  || body.returnLeg.dateFrom != monitor.returnLeg.dateFrom
  || body.returnLeg.dateTo != monitor.returnLeg.dateTo
  || body.availType.getD "rewards" != monitor.availType.getD "rewards"
  || sortedCabins body.cabins != sortedCabins monitor.cabins

/-- The edit applied to the stored monitor by `PUT /api/monitors/:id` after
validation: overwrite the editable fields, and when `coreChanged` holds
delete every tracking field. -/
def applyPut (body : PutBody) (monitor : Monitor) : Monitor :=
  let updated := { monitor with
    label := body.label
    cabins := body.cabins
    source := some (body.source.getD "awards")
    availType := some (body.availType.getD "rewards")
    outbound := body.outbound
    returnLeg := body.returnLeg }
  if coreChanged body monitor then
    { updated with
        currentCombined := none
        lowestCombined := none
        knownSlots := none
        lastOutbound := none
        lastReturn := none
        lastChecked := none
        currentCash := none
        lowestCash := none
        cashPending := none
        cashRequestedAt := none }
  else updated

-- ── Date-range validation ──────────────────────────────────────

/-- A leg as it arrives in a create/edit request body, before any
validation: either date bound may be absent. -/
structure RawLeg where
  dateFrom : Option String
  dateTo : Option String
deriving DecidableEq, Repr

/-- JavaScript falsiness of an optional string (`!leg?.dateFrom`): absent or
empty. -/
def strFalsy : Option String → Bool
  | none => true
  | some s => s == ""

/-- Source constant `MAX_DATE_RANGE_DAYS_SERVER`. -/
def MAX_DATE_RANGE_DAYS_SERVER : ℚ := 5

/-- Source function `validateLegDateRange`.  `getTime` abstracts
`new Date(s).getTime()` in milliseconds (the claims do not depend on the
parse; an unparseable date would yield NaN, whose comparisons are all false,
i.e. also no error).  A missing leg or a missing/empty bound short-circuits
to no error; with both bounds present, a negative span or a span above five
days is rejected. -/
def validateLegDateRange (getTime : String → ℚ) (leg : Option RawLeg)
    (label : String) : Option String :=
  match leg with
  | none => none
  | some l =>
      if strFalsy l.dateFrom || strFalsy l.dateTo then none
      else
        let days := (getTime (l.dateTo.getD "") - getTime (l.dateFrom.getD "")) / 86400000
        if days < 0 then some (label ++ ": end date must be after start date")
        else if days > MAX_DATE_RANGE_DAYS_SERVER then
          some (label ++ ": date range cannot exceed 5 days")
        else none

/-- The validation gate shared by `POST /api/monitors` and
`PUT /api/monitors/:id`: the outbound error, or else the return error
(`validateLegDateRange(body.outbound, ...) ?? validateLegDateRange(body.return, ...)`). -/
def legRangeError (getTime : String → ℚ) (outbound returnLeg : Option RawLeg) :
    Option String :=
  (validateLegDateRange getTime outbound "Outbound").or
    (validateLegDateRange getTime returnLeg "Return")

/-- The handler-level outcome of the create endpoint with respect to
validation: a 400 error response, or the monitor created and stored. -/
inductive PostOutcome where
  | badRequest (error : String)
  | created
deriving DecidableEq, Repr

/-- The validation gate of `POST /api/monitors`: reject with 400 when the
shared gate reports an error, otherwise create the monitor. -/
def postMonitors (getTime : String → ℚ) (outbound returnLeg : Option RawLeg) :
    PostOutcome :=
  match legRangeError getTime outbound returnLeg with
  | some e => .badRequest e
  | none => .created

-- ── Derived predicates used in theorem statements ──────────────

/-- Whether a result entry matches a known cash monitor: the first monitor
carrying the entry id exists and has source `cash`.  This is the condition
under which the `processCashResults` loop marks the poll `changed`. -/
def matchesCash (monitors : List Monitor) (entry : CashResultEntry) : Bool :=
  match monitors.find? (fun m => m.id == entry.monitorId) with
  | some m => m.source == some "cash"
  | none => false

-- ── Concrete fixtures for witnesses and counterexamples ────────

/-- A cash monitor with an outstanding request. -/
def mFixC1 : Monitor :=
  { id := "cash-1", label := "SYD-LAX cash", cabins := ["business"]
    source := some "cash", availType := none
    outbound := ⟨"SYD", "LAX", "2026-06-01", "2026-06-03"⟩
    returnLeg := ⟨"LAX", "SYD", "2026-06-20", "2026-06-22"⟩
    createdAt := "2026-01-01T00:00:00Z", lastChecked := none
    currentCombined := none, lowestCombined := none, knownSlots := none
    lastOutbound := none, lastReturn := none
    currentCash := none, lowestCash := none
    cashPending := some true, cashRequestedAt := some "t0" }

/-- A stored awards lowest record. -/
def recFixC3 : LowestRecord :=
  { points := 586000, outboundDate := "2026-06-02", returnDate := "2026-06-20"
    seenAt := "t0", totalTaxes := 300, taxesCurrency := "AUD", isDirect := true }

/-- A stored cash lowest record. -/
def cashFixC3 : CashRecord :=
  { aud := 4000, outboundDate := "2026-06-02", returnDate := "2026-06-20"
    seenAt := "t0", isDirect := true }

/-- An awards monitor with some tracking state, used for the edit claims. -/
def mFixC9 : Monitor :=
  { id := "aw-9", label := "SYD-BOS", cabins := ["business"]
    source := some "awards", availType := some "rewards"
    outbound := ⟨"SYD", "BOS", "2026-06-01", "2026-06-05"⟩
    returnLeg := ⟨"BOS", "SYD", "2026-06-20", "2026-06-24"⟩
    createdAt := "2026-01-01T00:00:00Z", lastChecked := some "t9"
    currentCombined := none, lowestCombined := some [("J", recFixC3)]
    knownSlots := some ["2026-06-02|J|out"]
    lastOutbound := none, lastReturn := none
    currentCash := none, lowestCash := none
    cashPending := none, cashRequestedAt := none }

/-- An edit body whose cabin list equals that of `mFixC9` as an unordered
set but not as a sorted list (a duplicated entry). -/
def bodyFixC9 : PutBody :=
  { label := "SYD-BOS", cabins := ["business", "business"]
    source := some "awards", availType := some "rewards"
    outbound := ⟨"SYD", "BOS", "2026-06-01", "2026-06-05"⟩
    returnLeg := ⟨"BOS", "SYD", "2026-06-20", "2026-06-24"⟩ }

/-- An edit body that changes only the label relative to `mFixC9`. -/
def bodyFixC9w : PutBody :=
  { label := "renamed", cabins := ["business"]
    source := some "awards", availType := some "rewards"
    outbound := ⟨"SYD", "BOS", "2026-06-01", "2026-06-05"⟩
    returnLeg := ⟨"BOS", "SYD", "2026-06-20", "2026-06-24"⟩ }

/-- An edit body that changes the outbound origin relative to `mFixC9`. -/
def bodyFixC5 : PutBody :=
  { label := "SYD-BOS", cabins := ["business"]
    source := some "awards", availType := some "rewards"
    outbound := ⟨"MEL", "BOS", "2026-06-01", "2026-06-05"⟩
    returnLeg := ⟨"BOS", "SYD", "2026-06-20", "2026-06-24"⟩ }

/-- A raw availability record with one available business fare. -/
def rawFixC6 : RawRecord :=
  ⟨fun k =>
    if k = "Date" then .jstr "2026-06-02"
    else if k = "JAvailable" then .jbool true
    else if k = "JMileageCost" then .jnum 293000
    else if k = "JDirectMileageCost" then .jnum 293000
    else if k = "JTotalTaxes" then .jnum 15000
    else if k = "TaxesCurrency" then .jstr "AUD"
    else .jnull⟩

/-- A normalized outbound business flight. -/
def fFixOut : NormalizedFlight :=
  ⟨"2026-06-02", "J", 293000, 2, true, "QF", "AUD", 150⟩

-- ── Helper lemmas ──────────────────────────────────────────────

theorem lookupStr_objInsert {α : Type} (l : List (String × α)) (k k' : String) (v : α) :
    lookupStr (objInsert l k v) k' = if k' = k then some v else lookupStr l k' := by
  induction l with
  | nil =>
      by_cases h : k' = k
      · simp [objInsert, lookupStr, h]
      · simp only [objInsert, lookupStr, if_neg h]
        rw [if_neg (fun hh => h hh.symm)]
  | cons kv rest ih =>
      obtain ⟨k1, v1⟩ := kv
      simp only [objInsert]
      by_cases h1 : k1 = k
      · subst h1
        simp only [if_pos rfl, lookupStr]
        by_cases h2 : k' = k1
        · simp [h2]
        · rw [if_neg (fun hh => h2 hh.symm), if_neg h2,
            if_neg (fun hh => h2 hh.symm)]
      · rw [if_neg h1]
        simp only [lookupStr, ih]
        by_cases h2 : k1 = k'
        · subst h2
          rw [if_pos rfl, if_neg h1, if_pos rfl]
        · rw [if_neg h2, if_neg h2]

theorem mem_jsSetList (l : List String) (x : String) : x ∈ jsSetList l ↔ x ∈ l := by
  induction l with
  | nil => simp [jsSetList]
  | cons y ys ih =>
      by_cases h : x = y
      · subst h; simp [jsSetList]
      · simp [jsSetList, h, List.mem_filter, ih]

theorem bestBy_eq_none {α : Type} (f : α → ℚ) (l : List α) :
    bestBy f l = none ↔ l = [] := by
  cases l with
  | nil => simp [bestBy]
  | cons x xs =>
      simp only [bestBy]
      cases bestBy f xs with
      | none => simp
      | some y =>
          by_cases h : f x ≤ f y <;> simp [h]

theorem bestBy_map_minQ {α : Type} (f : α → ℚ) (l : List α) :
    (bestBy f l).map f = minQ (l.map f) := by
  induction l with
  | nil => rfl
  | cons x xs ih =>
      simp only [bestBy, List.map_cons, minQ]
      cases hb : bestBy f xs with
      | none =>
          have hn : minQ (List.map f xs) = none := by rw [← ih, hb]; rfl
          simp [hn]
      | some y =>
          have hs : minQ (List.map f xs) = some (f y) := by rw [← ih, hb]; rfl
          simp only [hs]
          by_cases h : f x ≤ f y <;> simp [h, min_def]

theorem bestBy_mem {α : Type} (f : α → ℚ) (l : List α) (x : α)
    (h : bestBy f l = some x) : x ∈ l := by
  induction l with
  | nil => simp [bestBy] at h
  | cons a as ih =>
      cases hb : bestBy f as with
      | none =>
          simp only [bestBy, hb] at h
          simp at h; simp [h]
      | some y =>
          simp only [bestBy, hb] at h
          by_cases hle : f a ≤ f y
          · rw [if_pos hle] at h
            simp at h; simp [h]
          · rw [if_neg hle] at h
            simp at h
            subst h
            exact List.mem_cons_of_mem _ (ih hb)

-- ── Claims ─────────────────────────────────────────────────────

/-- Claim C1, counterexample.  The claim asserts that while `cashPending` is
set a new refresh request is a no-op on the on-demand path as well.  The
on-demand cash branch of `POST /api/monitors/:id/refresh` carries no pending
guard: for a monitor already pending, it still updates `cashRequestedAt`
and rewrites the request document entry. -/
theorem claim_C1_counterexample :
    mFixC1.cashPending = some true ∧
    (refreshOneCashEndpoint mFixC1 [] "t1").1.cashRequestedAt ≠ mFixC1.cashRequestedAt ∧
    (refreshOneCashEndpoint mFixC1 [] "t1").2 ≠ ([] : List CashRequest) := by
  refine ⟨rfl, ?_, ?_⟩ <;> decide

/-- Claim C1, amended.  While `cashPending` is set, the hourly full cycle
is a no-op for the cash monitor: the monitor entry, the request document and
the alert queue are all left unchanged.  The on-demand single-monitor
refresh, by contrast, unconditionally re-issues the request: it re-marks
pending, stamps `cashRequestedAt` with the current time, and rewrites the
monitor entry in the request document even while a request is outstanding. -/
theorem claim_C1_amended :
    (∀ (m : Monitor) (fetch : Monitor → FetchOutcome) (requests : List CashRequest)
        (now : String), m.source = some "cash" → m.cashPending = some true →
      refreshAll [m] fetch requests now = ⟨[m], requests, []⟩) ∧
    (∀ (m : Monitor) (requests : List CashRequest) (now : String),
      (refreshOneCashEndpoint m requests now).1.cashPending = some true ∧
      (refreshOneCashEndpoint m requests now).1.cashRequestedAt = some now ∧
      ∃ e ∈ (refreshOneCashEndpoint m requests now).2,
        e.monitorId = m.id ∧ e.requestedAt = some now) := by
  constructor
  · intro m fetch requests now hsrc hpend
    simp [refreshAll, hsrc, cashCycleStep, hpend]
  · intro m requests now
    refine ⟨rfl, rfl, ?_⟩
    refine ⟨_, List.mem_append_right _ (List.mem_singleton_self _), rfl, rfl⟩

/-- Claim C1, witness for the amended theorem at a concrete pending cash
monitor. -/
theorem claim_C1_witness :
    refreshAll [mFixC1] (fun _ => FetchOutcome.fail) [] "t1" = ⟨[mFixC1], [], []⟩ ∧
    ∃ e ∈ (refreshOneCashEndpoint mFixC1 [] "t1").2,
      e.monitorId = mFixC1.id ∧ e.requestedAt = some "t1" :=
  ⟨claim_C1_amended.1 mFixC1 (fun _ => FetchOutcome.fail) [] "t1" rfl rfl,
   (claim_C1_amended.2 mFixC1 [] "t1").2.2⟩

/-- Claim C3: in both the awards `lowestCombined` map and the cash
`lowestCash` map, the stored lowest record for a cabin is replaced, with one
new-lowest alert line emitted, exactly when there is no prior record or the
new value is strictly lower; otherwise the map is left unchanged and no line
is emitted; consequently a stored lowest value is never replaced by a larger
one. -/
theorem claim_C3_lowest_update_rule :
    (∀ (low : List (String × LowestRecord)) (code : String) (r : LowestRecord),
      ((awardLowestStep low code r).2 ≠ [] ↔
        lookupStr low code = none ∨
          ∃ prev, lookupStr low code = some prev ∧ r.points < prev.points) ∧
      ((lookupStr low code = none ∨
          ∃ prev, lookupStr low code = some prev ∧ r.points < prev.points) →
        (awardLowestStep low code r).1 = objInsert low code r) ∧
      (∀ prev, lookupStr low code = some prev → ¬ r.points < prev.points →
        awardLowestStep low code r = (low, [])) ∧
      (∀ prev q, lookupStr low code = some prev →
        lookupStr (awardLowestStep low code r).1 code = some q →
        q.points ≤ prev.points)) ∧
    (∀ (low : List (String × CashRecord)) (code : String) (p : CashRecord),
      ((cashLowestStep low code p).2 ≠ [] ↔
        lookupStr low code = none ∨
          ∃ prev, lookupStr low code = some prev ∧ p.aud < prev.aud) ∧
      ((lookupStr low code = none ∨
          ∃ prev, lookupStr low code = some prev ∧ p.aud < prev.aud) →
        (cashLowestStep low code p).1 = objInsert low code p) ∧
      (∀ prev, lookupStr low code = some prev → ¬ p.aud < prev.aud →
        cashLowestStep low code p = (low, [])) ∧
      (∀ prev q, lookupStr low code = some prev →
        lookupStr (cashLowestStep low code p).1 code = some q →
        q.aud ≤ prev.aud)) := by
  constructor
  · intro low code r
    refine ⟨?_, ?_, ?_, ?_⟩
    · cases hl : lookupStr low code with
      | none => simp [awardLowestStep, hl]
      | some prev =>
          by_cases hp : r.points < prev.points <;>
            simp [awardLowestStep, hl, hp]
    · rintro (hl | ⟨prev, hl, hp⟩)
      · simp [awardLowestStep, hl]
      · simp [awardLowestStep, hl, hp]
    · intro prev hl hp
      simp [awardLowestStep, hl, hp]
    · intro prev q hl hq
      by_cases hp : r.points < prev.points
      · simp only [awardLowestStep, hl, if_pos hp] at hq
        rw [lookupStr_objInsert, if_pos rfl] at hq
        cases hq
        exact le_of_lt hp
      · simp only [awardLowestStep, hl, if_neg hp] at hq
        cases hq
        exact le_rfl
  · intro low code p
    refine ⟨?_, ?_, ?_, ?_⟩
    · cases hl : lookupStr low code with
      | none => simp [cashLowestStep, hl]
      | some prev =>
          by_cases hp : p.aud < prev.aud <;>
            simp [cashLowestStep, hl, hp]
    · rintro (hl | ⟨prev, hl, hp⟩)
      · simp [cashLowestStep, hl]
      · simp [cashLowestStep, hl, hp]
    · intro prev hl hp
      simp [cashLowestStep, hl, hp]
    · intro prev q hl hq
      by_cases hp : p.aud < prev.aud
      · simp only [cashLowestStep, hl, if_pos hp] at hq
        rw [lookupStr_objInsert, if_pos rfl] at hq
        cases hq
        exact le_of_lt hp
      · simp only [cashLowestStep, hl, if_neg hp] at hq
        cases hq
        exact le_rfl

/-- Claim C3, witness: a repeated identical value replaces nothing and emits
no alert line, on both channels. -/
theorem claim_C3_witness :
    awardLowestStep [("J", recFixC3)] "J" recFixC3 = ([("J", recFixC3)], []) ∧
    cashLowestStep [("J", cashFixC3)] "J" cashFixC3 = ([("J", cashFixC3)], []) :=
  ⟨(claim_C3_lowest_update_rule.1 [("J", recFixC3)] "J" recFixC3).2.2.1 recFixC3
      (by decide) (by decide),
   (claim_C3_lowest_update_rule.2 [("J", cashFixC3)] "J" cashFixC3).2.2.1 cashFixC3
      (by decide) (by decide)⟩

theorem mem_sortedCabins (l : List String) (c : String) :
    c ∈ sortedCabins l ↔ c ∈ l := by
  simp [sortedCabins, List.mem_mergeSort]

theorem sortedCabins_length (l : List String) :
    (sortedCabins l).length = l.length := by
  simp [sortedCabins, List.length_mergeSort]

/-- Claim C5: an edit through the PUT endpoint that changes any leg field,
the effective award-availability mode, or the cabin set as an unordered set,
clears every tracking field of the stored monitor, so the monitor re-enters
a fresh tracking epoch. -/
theorem claim_C5_core_edit_resets (body : PutBody) (monitor : Monitor)
    (h : body.outbound.origin ≠ monitor.outbound.origin ∨
      body.outbound.destination ≠ monitor.outbound.destination ∨
      body.outbound.dateFrom ≠ monitor.outbound.dateFrom ∨
      body.outbound.dateTo ≠ monitor.outbound.dateTo ∨
      body.returnLeg.origin ≠ monitor.returnLeg.origin ∨
      body.returnLeg.destination ≠ monitor.returnLeg.destination ∨
      body.returnLeg.dateFrom ≠ monitor.returnLeg.dateFrom ∨
      body.returnLeg.dateTo ≠ monitor.returnLeg.dateTo ∨
      body.availType.getD "rewards" ≠ monitor.availType.getD "rewards" ∨
      ¬ (∀ c, c ∈ body.cabins ↔ c ∈ monitor.cabins)) :
    (applyPut body monitor).currentCombined = none ∧
    (applyPut body monitor).lowestCombined = none ∧
    (applyPut body monitor).knownSlots = none ∧
    (applyPut body monitor).lastOutbound = none ∧
    (applyPut body monitor).lastReturn = none ∧
    (applyPut body monitor).lastChecked = none ∧
    (applyPut body monitor).currentCash = none ∧
    (applyPut body monitor).lowestCash = none ∧
    (applyPut body monitor).cashPending = none ∧
    (applyPut body monitor).cashRequestedAt = none := by
  have hcab : ¬ (∀ c, c ∈ body.cabins ↔ c ∈ monitor.cabins) →
      sortedCabins body.cabins ≠ sortedCabins monitor.cabins := by
    intro hn heq
    exact hn fun c => by rw [← mem_sortedCabins, heq, mem_sortedCabins]
  have hc : coreChanged body monitor = true := by
    simp only [coreChanged, Bool.or_eq_true, bne_iff_ne, ne_eq]
    rcases h with h|h|h|h|h|h|h|h|h|h
    · tauto
    · tauto
    · tauto
    · tauto
    · tauto
    · tauto
    · tauto
    · tauto
    · tauto
    · have h2 := hcab h
      tauto
  simp [applyPut, hc]

/-- Claim C5, witness: changing the outbound origin clears all tracking
fields. -/
theorem claim_C5_witness :
    (applyPut bodyFixC5 mFixC9).lowestCombined = none ∧
    (applyPut bodyFixC5 mFixC9).knownSlots = none :=
  ⟨(claim_C5_core_edit_resets bodyFixC5 mFixC9 (Or.inl (by decide))).2.1,
   (claim_C5_core_edit_resets bodyFixC5 mFixC9 (Or.inl (by decide))).2.2.1⟩

/-- Claim C9, counterexample.  The handler compares the cabin lists sorted
but not deduplicated (`JSON.stringify(cabins.sort())`), so an edit whose
cabin list equals the stored one as an unordered set, but not as a multiset
(a duplicated entry), still resets tracking: here every core field and the
cabin set are unchanged in the sense of the claim, yet `lastChecked` is
cleared rather than left unchanged. -/
theorem claim_C9_counterexample :
    (∀ c, c ∈ bodyFixC9.cabins ↔ c ∈ mFixC9.cabins) ∧
    bodyFixC9.outbound = mFixC9.outbound ∧
    bodyFixC9.returnLeg = mFixC9.returnLeg ∧
    bodyFixC9.availType.getD "rewards" = mFixC9.availType.getD "rewards" ∧
    mFixC9.lastChecked = some "t9" ∧
    (applyPut bodyFixC9 mFixC9).lastChecked = none := by
  refine ⟨?_, rfl, rfl, rfl, rfl, ?_⟩
  · intro c
    simp [bodyFixC9, mFixC9]
  · have hlen : sortedCabins bodyFixC9.cabins ≠ sortedCabins mFixC9.cabins := by
      intro heq
      have h2 := congrArg List.length heq
      rw [sortedCabins_length, sortedCabins_length] at h2
      simp [bodyFixC9, mFixC9] at h2
    have hc : coreChanged bodyFixC9 mFixC9 = true := by
      simp only [coreChanged, Bool.or_eq_true, bne_iff_ne, ne_eq]
      tauto
    simp [applyPut, hc]

/-- Claim C9, amended.  An edit that leaves both legs, the effective
award-availability mode and the cabin list as a sorted list (a multiset,
hence in particular any permutation of the stored list) unchanged leaves
every tracking field of the stored monitor unchanged; edits that change only
the label or the source channel are of this kind. -/
theorem claim_C9_amended (body : PutBody) (monitor : Monitor)
    (h1 : body.outbound = monitor.outbound)
    (h2 : body.returnLeg = monitor.returnLeg)
    (h3 : body.availType.getD "rewards" = monitor.availType.getD "rewards")
    (h4 : sortedCabins body.cabins = sortedCabins monitor.cabins) :
    (applyPut body monitor).currentCombined = monitor.currentCombined ∧
    (applyPut body monitor).lowestCombined = monitor.lowestCombined ∧
    (applyPut body monitor).knownSlots = monitor.knownSlots ∧
    (applyPut body monitor).lastOutbound = monitor.lastOutbound ∧
    (applyPut body monitor).lastReturn = monitor.lastReturn ∧
    (applyPut body monitor).lastChecked = monitor.lastChecked ∧
    (applyPut body monitor).currentCash = monitor.currentCash ∧
    (applyPut body monitor).lowestCash = monitor.lowestCash ∧
    (applyPut body monitor).cashPending = monitor.cashPending ∧
    (applyPut body monitor).cashRequestedAt = monitor.cashRequestedAt := by
  have hc : coreChanged body monitor = false := by
    simp [coreChanged, h1, h2, h3, h4]
  simp [applyPut, hc]

/-- Claim C9, witness for the amended theorem: a label-only edit leaves
tracking untouched. -/
theorem claim_C9_amended_witness :
    (applyPut bodyFixC9w mFixC9).lowestCombined = mFixC9.lowestCombined ∧
    (applyPut bodyFixC9w mFixC9).knownSlots = mFixC9.knownSlots ∧
    (applyPut bodyFixC9w mFixC9).lastChecked = mFixC9.lastChecked :=
  ⟨(claim_C9_amended bodyFixC9w mFixC9 rfl rfl rfl rfl).2.1,
   (claim_C9_amended bodyFixC9w mFixC9 rfl rfl rfl rfl).2.2.1,
   (claim_C9_amended bodyFixC9w mFixC9 rfl rfl rfl rfl).2.2.2.2.2.1⟩

/-- Claim C10: the date-range validation returns an error only when the leg
is present with both bounds; a missing leg or a missing (or empty) bound
yields no error, and a create request whose legs pass the gate this way is
accepted; the five-day and order checks are therefore enforced only when
both bounds are present. -/
theorem claim_C10_validation_requires_both_bounds :
    (∀ (getTime : String → ℚ) (leg : Option RawLeg) (label : String),
      (validateLegDateRange getTime leg label).isSome →
      ∃ l, leg = some l ∧ strFalsy l.dateFrom = false ∧ strFalsy l.dateTo = false) ∧
    (∀ (getTime : String → ℚ) (l : RawLeg) (label : String),
      strFalsy l.dateFrom = true ∨ strFalsy l.dateTo = true →
      validateLegDateRange getTime (some l) label = none) ∧
    (∀ (getTime : String → ℚ) (label : String),
      validateLegDateRange getTime none label = none) ∧
    (∀ (getTime : String → ℚ) (outbound returnLeg : Option RawLeg),
      validateLegDateRange getTime outbound "Outbound" = none →
      validateLegDateRange getTime returnLeg "Return" = none →
      postMonitors getTime outbound returnLeg = .created) := by
  refine ⟨?_, ?_, ?_, ?_⟩
  · intro getTime leg label hs
    cases leg with
    | none => simp [validateLegDateRange] at hs
    | some l =>
        refine ⟨l, rfl, ?_, ?_⟩ <;>
        · by_contra hf
          simp only [Bool.not_eq_false] at hf
          simp [validateLegDateRange, hf] at hs
  · intro getTime l label hf
    rcases hf with hf | hf <;> simp [validateLegDateRange, hf]
  · intro getTime label
    simp [validateLegDateRange]
  · intro getTime outbound returnLeg ho hr
    simp [postMonitors, legRangeError, ho, hr]

/-- Claim C10, witness: a leg with only a start bound passes validation and
the create request is accepted. -/
theorem claim_C10_witness :
    validateLegDateRange (fun _ => 0) (some ⟨some "2026-01-01", none⟩) "Outbound" = none ∧
    postMonitors (fun _ => 0) (some ⟨some "2026-01-01", none⟩) none = .created := by
  have h1 := claim_C10_validation_requires_both_bounds.2.1 (fun _ => 0)
    ⟨some "2026-01-01", none⟩ "Outbound" (Or.inr rfl)
  have h2 := claim_C10_validation_requires_both_bounds.2.2.1 (fun _ => (0 : ℚ)) "Return"
  exact ⟨h1, claim_C10_validation_requires_both_bounds.2.2.2 (fun _ => 0)
    (some ⟨some "2026-01-01", none⟩) none h1 h2⟩

/-- Claim C7: a successful award refresh stores a `knownSlots` set that is
exactly the old set unioned with every `date|cabin|direction` key observed in
the refreshed legs — in particular a superset of the old set, so the set
only grows within a tracking epoch — and a core-field edit clears it. -/
theorem claim_C7_knownSlots_monotone :
    (∀ (m : Monitor) (outbound ret : List NormalizedFlight) (now k : String),
      k ∈ (refreshMonitor m outbound ret now).1.knownSlots.getD [] ↔
        (k ∈ m.knownSlots.getD [] ∨
         k ∈ outbound.map (fun f => slotKey f "out")
           ++ ret.map (fun f => slotKey f "ret"))) ∧
    (∀ (body : PutBody) (monitor : Monitor), coreChanged body monitor = true →
      (applyPut body monitor).knownSlots = none) := by
  constructor
  · intro m ob rt now k
    simp only [refreshMonitor, Option.getD_some, List.mem_append, mem_jsSetList,
      List.mem_map, List.mem_filter, Bool.not_eq_eq_eq_not, Bool.not_true,
      List.elem_eq_mem, decide_eq_false_iff_not]
    constructor
    · rintro (h | ⟨f, ⟨hf, _⟩, rfl⟩ | ⟨f, ⟨hf, _⟩, rfl⟩)
      · exact Or.inl h
      · exact Or.inr (Or.inl ⟨f, hf, rfl⟩)
      · exact Or.inr (Or.inr ⟨f, hf, rfl⟩)
    · rintro (h | ⟨f, hf, rfl⟩ | ⟨f, hf, rfl⟩)
      · exact Or.inl h
      · by_cases hc : slotKey f "out" ∈ m.knownSlots.getD []
        · exact Or.inl hc
        · exact Or.inr (Or.inl ⟨f, ⟨hf, hc⟩, rfl⟩)
      · by_cases hc : slotKey f "ret" ∈ m.knownSlots.getD []
        · exact Or.inl hc
        · exact Or.inr (Or.inr ⟨f, ⟨hf, hc⟩, rfl⟩)
  · intro body monitor hc
    simp [applyPut, hc]

/-- Claim C7, witness: a refresh of a monitor with one known slot and one
newly observed slot keeps the old key, and a changed-origin edit clears the
set. -/
theorem claim_C7_witness :
    ("2026-06-02|J|out" ∈
      (refreshMonitor mFixC9 [] [] "t1").1.knownSlots.getD []) ∧
    (applyPut bodyFixC5 mFixC9).knownSlots = none := by
  constructor
  · exact (claim_C7_knownSlots_monotone.1 mFixC9 [] [] "t1" "2026-06-02|J|out").mpr
      (Or.inl (by decide))
  · apply claim_C7_knownSlots_monotone.2
    simp [coreChanged, Bool.or_eq_true, bne_iff_ne, ne_eq]
    decide

theorem refreshAll_append (a b : List Monitor) (fetch : Monitor → FetchOutcome)
    (requests : List CashRequest) (now : String) :
    refreshAll (a ++ b) fetch requests now =
      ⟨(refreshAll a fetch requests now).monitors
         ++ (refreshAll b fetch (refreshAll a fetch requests now).requests now).monitors,
       (refreshAll b fetch (refreshAll a fetch requests now).requests now).requests,
       (refreshAll a fetch requests now).alerts
         ++ (refreshAll b fetch (refreshAll a fetch requests now).requests now).alerts⟩ := by
  induction a generalizing requests with
  | nil => simp [refreshAll]
  | cons m rest ih =>
      by_cases hs : m.source = some "cash"
      · simp only [List.cons_append, refreshAll, if_pos hs, List.append_eq]
        rw [ih]
      · cases hf : fetch m with
        | fail =>
            simp only [List.cons_append, refreshAll, if_neg hs, hf, List.append_eq]
            rw [ih]
        | ok outbound ret =>
            simp only [List.cons_append, refreshAll, if_neg hs, hf, List.append_eq]
            rw [ih]
            simp

/-- Claim C8: when either leg fetch of an awards monitor fails, that
refresh is abandoned with no partial update: in the full cycle the monitor
is carried through unchanged, it contributes no alert batch and no request
change, and the remaining monitors before and after it are processed exactly
as they would otherwise be. -/
theorem claim_C8_failed_fetch_abandons_refresh (pre post : List Monitor)
    (m : Monitor) (fetch : Monitor → FetchOutcome) (requests : List CashRequest)
    (now : String) (hsrc : m.source ≠ some "cash") (hfail : fetch m = .fail) :
    refreshAll (pre ++ m :: post) fetch requests now =
      ⟨(refreshAll pre fetch requests now).monitors
         ++ m :: (refreshAll post fetch (refreshAll pre fetch requests now).requests now).monitors,
       (refreshAll post fetch (refreshAll pre fetch requests now).requests now).requests,
       (refreshAll pre fetch requests now).alerts
         ++ (refreshAll post fetch (refreshAll pre fetch requests now).requests now).alerts⟩ := by
  rw [refreshAll_append]
  simp only [refreshAll, if_neg hsrc, hfail]

/-- Claim C8, witness: a one-monitor cycle whose fetch fails leaves the
monitor document and the request document unchanged and appends no alert. -/
theorem claim_C8_witness :
    refreshAll ([] ++ mFixC9 :: []) (fun _ => FetchOutcome.fail) [] "t1" =
      ⟨(refreshAll [] (fun _ => FetchOutcome.fail) [] "t1").monitors
         ++ mFixC9 :: (refreshAll [] (fun _ => FetchOutcome.fail)
             (refreshAll [] (fun _ => FetchOutcome.fail) [] "t1").requests "t1").monitors,
       (refreshAll [] (fun _ => FetchOutcome.fail)
         (refreshAll [] (fun _ => FetchOutcome.fail) [] "t1").requests "t1").requests,
       (refreshAll [] (fun _ => FetchOutcome.fail) [] "t1").alerts
         ++ (refreshAll [] (fun _ => FetchOutcome.fail)
             (refreshAll [] (fun _ => FetchOutcome.fail) [] "t1").requests "t1").alerts⟩ :=
  claim_C8_failed_fetch_abandons_refresh [] [] mFixC9 (fun _ => FetchOutcome.fail)
    [] "t1" (by decide) rfl

theorem processOneResult_spec (ms : List Monitor) (e : CashResultEntry)
    (now : String) :
    (processOneResult ms e now).1.map (fun m => (m.id, m.source)) =
      ms.map (fun m => (m.id, m.source)) ∧
    (processOneResult ms e now).2.2 = matchesCash ms e := by
  induction ms with
  | nil => simp [processOneResult, matchesCash]
  | cons m rest ih =>
      by_cases hid : m.id = e.monitorId
      · by_cases hsrc : m.source = some "cash"
        · simp [processOneResult, hid, hsrc, matchesCash, List.find?_cons,
            applyCashEntry]
        · simp [processOneResult, hid, hsrc, matchesCash, List.find?_cons]
      · have hb : (m.id == e.monitorId) = false := by
          simp [hid]
        simp [processOneResult, hid, matchesCash, List.find?_cons, hb, ih]

theorem list_any_congr {α : Type} (l : List α) (f g : α → Bool)
    (h : ∀ x ∈ l, f x = g x) : l.any f = l.any g := by
  induction l with
  | nil => rfl
  | cons x xs ih =>
      simp only [List.any_cons, h x (by simp)]
      rw [ih fun y hy => h y (by simp [hy])]

theorem matchesCash_congr (ms ms' : List Monitor) (e : CashResultEntry)
    (h : ms.map (fun m => (m.id, m.source)) = ms'.map (fun m => (m.id, m.source))) :
    matchesCash ms e = matchesCash ms' e := by
  induction ms generalizing ms' with
  | nil =>
      cases ms' with
      | nil => rfl
      | cons m' rest' => simp at h
  | cons m rest ih =>
      cases ms' with
      | nil => simp at h
      | cons m' rest' =>
          simp only [List.map_cons, List.cons.injEq, Prod.mk.injEq] at h
          obtain ⟨⟨hid, hsrc⟩, hrest⟩ := h
          simp only [matchesCash, List.find?_cons, hid, hsrc]
          cases hb : (m'.id == e.monitorId) with
          | true => simp [hsrc]
          | false => exact ih rest' hrest

theorem processCashResults_fold (doc : List CashResultEntry) (now : String) :
    ∀ (ms : List Monitor) (al : List PendingAlert) (ch : Bool),
      ((doc.foldl
          (fun (st : List Monitor × List PendingAlert × Bool) entry =>
            let p := processOneResult st.1 entry now
            (p.1, st.2.1 ++ p.2.1, st.2.2 || p.2.2))
          (ms, al, ch)).1.map (fun m => (m.id, m.source))
        = ms.map (fun m => (m.id, m.source))) ∧
      ((doc.foldl
          (fun (st : List Monitor × List PendingAlert × Bool) entry =>
            let p := processOneResult st.1 entry now
            (p.1, st.2.1 ++ p.2.1, st.2.2 || p.2.2))
          (ms, al, ch)).2.2
        = (ch || doc.any (fun e => matchesCash ms e))) := by
  induction doc with
  | nil =>
      intro ms al ch
      simp
  | cons e doc ih =>
      intro ms al ch
      have h1 := processOneResult_spec ms e now
      obtain ⟨hmap, hch⟩ := ih (processOneResult ms e now).1
        (al ++ (processOneResult ms e now).2.1)
        (ch || (processOneResult ms e now).2.2)
      simp only [List.foldl_cons, List.any_cons]
      constructor
      · rw [hmap, h1.1]
      · rw [hch, h1.2,
          list_any_congr doc _ _ (fun x _ => matchesCash_congr _ _ x h1.1),
          Bool.or_assoc]

/-- Claim C2, counterexample.  The claim asserts the result document is
reset after every nonempty poll regardless of matching; but the poll only
rewrites the documents when at least one entry was applied (`changed`), so a
nonempty poll whose entries match no cash monitor (here the id matches an
awards monitor, which the loop skips) leaves the result document in place to
be re-read. -/
theorem claim_C2_counterexample :
    (processCashResults [⟨"aw-9", some "t", []⟩] [mFixC9] "now").results =
      [⟨"aw-9", some "t", []⟩] ∧
    (processCashResults [⟨"aw-9", some "t", []⟩] [mFixC9] "now").results ≠ [] := by
  refine ⟨?_, ?_⟩ <;> decide

/-- Claim C2, amended.  For every poll, the result document is reset to the
empty array exactly when at least one entry matches a known cash-channel
monitor (the first stored monitor with its id has source cash); when no
entry matches, the document is left unchanged, so those entries are re-read
by later polls. -/
theorem claim_C2_amended (resultsDoc : List CashResultEntry)
    (monitors : List Monitor) (now : String) :
    (processCashResults resultsDoc monitors now).results =
      if resultsDoc.any (fun e => matchesCash monitors e) then [] else resultsDoc := by
  by_cases hd : resultsDoc = []
  · subst hd
    simp [processCashResults]
  · simp only [processCashResults, if_neg hd]
    have h := (processCashResults_fold resultsDoc now) monitors [] false
    rw [h.2] at *
    cases hb : resultsDoc.any (fun e => matchesCash monitors e) with
    | true => simp [hb]
    | false => simp [hb]

/-- Claim C2, witness for the amended theorem: a matching cash entry resets
the document, evaluated at a concrete poll. -/
theorem claim_C2_witness :
    (processCashResults [⟨"cash-1", some "t", []⟩] [mFixC1] "now").results = [] := by
  have h := claim_C2_amended [⟨"cash-1", some "t", []⟩] [mFixC1] "now"
  rw [h]
  decide

theorem cabinRecord_isSome (ob rt : List NormalizedFlight) (now code : String) :
    (cabinRecord ob rt now code).isSome = true ↔
      ob.filter (fun f => f.cabin == code) ≠ [] ∧
      rt.filter (fun f => f.cabin == code) ≠ [] := by
  unfold cabinRecord
  cases hbo : bestBy (fun f => f.MileageCost) (ob.filter (fun f => f.cabin == code)) with
  | none =>
      have h1 := (bestBy_eq_none (fun f => f.MileageCost)
        (ob.filter (fun f => f.cabin == code))).mp hbo
      simp [h1]
  | some bo =>
      have h1 : ob.filter (fun f => f.cabin == code) ≠ [] := by
        intro hh
        rw [hh] at hbo
        simp [bestBy] at hbo
      cases hbr : bestBy (fun f => f.MileageCost) (rt.filter (fun f => f.cabin == code)) with
      | none =>
          have h2 := (bestBy_eq_none (fun f => f.MileageCost)
            (rt.filter (fun f => f.cabin == code))).mp hbr
          simp [h2]
      | some br =>
          have h2 : rt.filter (fun f => f.cabin == code) ≠ [] := by
            intro hh
            rw [hh] at hbr
            simp [bestBy] at hbr
          simp [h1, h2]

theorem cabinRecord_points (ob rt : List NormalizedFlight) (now code : String)
    (r : LowestRecord) (a b : ℚ) (h : cabinRecord ob rt now code = some r)
    (ha : minQ ((ob.filter (fun f => f.cabin == code)).map (fun f => f.MileageCost)) = some a)
    (hb : minQ ((rt.filter (fun f => f.cabin == code)).map (fun f => f.MileageCost)) = some b) :
    r.points = a + b := by
  unfold cabinRecord at h
  cases hbo : bestBy (fun f => f.MileageCost) (ob.filter (fun f => f.cabin == code)) with
  | none => rw [hbo] at h; simp at h
  | some bo =>
      cases hbr : bestBy (fun f => f.MileageCost) (rt.filter (fun f => f.cabin == code)) with
      | none => rw [hbo, hbr] at h; simp at h
      | some br =>
          rw [hbo, hbr] at h
          have h1 := bestBy_map_minQ (fun f => f.MileageCost)
            (ob.filter (fun f => f.cabin == code))
          have h2 := bestBy_map_minQ (fun f => f.MileageCost)
            (rt.filter (fun f => f.cabin == code))
          rw [hbo, ha] at h1
          rw [hbr, hb] at h2
          simp only [Option.map_some'] at h1 h2
          cases h1
          cases h2
          cases h
          rfl

theorem awardLowestStep_lookup_ne (low : List (String × LowestRecord)) (c : String)
    (r : LowestRecord) (code : String) (h : c ≠ code) :
    lookupStr (awardLowestStep low c r).1 code = lookupStr low code := by
  unfold awardLowestStep
  cases hl : lookupStr low c with
  | none =>
      simp only []
      rw [lookupStr_objInsert, if_neg (fun hh => h hh.symm)]
  | some prev =>
      by_cases hp : r.points < prev.points
      · simp only [if_pos hp]
        rw [lookupStr_objInsert, if_neg (fun hh => h hh.symm)]
      · simp only [if_neg hp]

theorem foldCabins_current (ob rt : List NormalizedFlight) (now : String)
    (codes : List String) (code : String) :
    ∀ init : List (String × LowestRecord) × List (String × LowestRecord) × List String,
      lookupStr (codes.foldl (refreshCabinStep ob rt now) init).1 code =
        if code ∈ codes ∧ (cabinRecord ob rt now code).isSome
        then cabinRecord ob rt now code
        else lookupStr init.1 code := by
  induction codes with
  | nil =>
      intro init
      simp
  | cons c cs ih =>
      intro init
      simp only [List.foldl_cons]
      rw [ih]
      by_cases hcs : code ∈ cs ∧ (cabinRecord ob rt now code).isSome = true
      · rw [if_pos hcs, if_pos ⟨List.mem_cons_of_mem _ hcs.1, hcs.2⟩]
      · rw [if_neg hcs]
        by_cases hec : code = c
        · subst hec
          cases hcr : cabinRecord ob rt now code with
          | none =>
              simp only [refreshCabinStep, hcr]
              rw [if_neg]
              intro hh
              simp at hh
          | some r =>
              simp only [refreshCabinStep, hcr]
              rw [lookupStr_objInsert, if_pos rfl,
                if_pos ⟨List.mem_cons_self _ _, rfl⟩]
        · have hstep : lookupStr (refreshCabinStep ob rt now init c).1 code =
              lookupStr init.1 code := by
            cases hcr : cabinRecord ob rt now c with
            | none => simp [refreshCabinStep, hcr]
            | some r =>
                simp only [refreshCabinStep, hcr]
                rw [lookupStr_objInsert, if_neg hec]
          rw [hstep, if_neg]
          intro hh
          rcases List.mem_cons.mp hh.1 with h1 | h1
          · exact hec h1
          · exact hcs ⟨h1, hh.2⟩

theorem foldCabins_lowest_preserved (ob rt : List NormalizedFlight) (now : String)
    (codes : List String) (code : String)
    (hnone : cabinRecord ob rt now code = none) :
    ∀ init : List (String × LowestRecord) × List (String × LowestRecord) × List String,
      lookupStr (codes.foldl (refreshCabinStep ob rt now) init).2.1 code =
        lookupStr init.2.1 code := by
  induction codes with
  | nil =>
      intro init
      simp
  | cons c cs ih =>
      intro init
      simp only [List.foldl_cons]
      rw [ih]
      cases hcr : cabinRecord ob rt now c with
      | none => simp [refreshCabinStep, hcr]
      | some r =>
          have hec : c ≠ code := by
            intro hh
            subst hh
            rw [hnone] at hcr
            cases hcr
          simp only [refreshCabinStep, hcr]
          rw [awardLowestStep_lookup_ne _ _ _ _ hec]

/-- Claim C4: on a successful award refresh, a current combined record for a
tracked cabin is produced exactly when both normalized legs carry at least
one entry for that cabin; its points value is then the minimal outbound
mileage cost plus the minimal return mileage cost; and when either leg has
no entry, no current record is produced and the stored lowest record for
that cabin is preserved untouched. -/
theorem claim_C4_combined_record (m : Monitor) (outbound ret : List NormalizedFlight)
    (now : String) (c : String) (hc : c ∈ m.cabins) :
    ((lookupStr ((refreshMonitor m outbound ret now).1.currentCombined.getD [])
        (cabinCode c)).isSome = true ↔
      outbound.filter (fun f => f.cabin == cabinCode c) ≠ [] ∧
      ret.filter (fun f => f.cabin == cabinCode c) ≠ []) ∧
    (∀ (r : LowestRecord) (a b : ℚ),
      lookupStr ((refreshMonitor m outbound ret now).1.currentCombined.getD [])
        (cabinCode c) = some r →
      minQ ((outbound.filter (fun f => f.cabin == cabinCode c)).map
        (fun f => f.MileageCost)) = some a →
      minQ ((ret.filter (fun f => f.cabin == cabinCode c)).map
        (fun f => f.MileageCost)) = some b →
      r.points = a + b) ∧
    ((outbound.filter (fun f => f.cabin == cabinCode c) = [] ∨
      ret.filter (fun f => f.cabin == cabinCode c) = []) →
      lookupStr ((refreshMonitor m outbound ret now).1.currentCombined.getD [])
        (cabinCode c) = none ∧
      lookupStr ((refreshMonitor m outbound ret now).1.lowestCombined.getD [])
        (cabinCode c) = lookupStr (m.lowestCombined.getD []) (cabinCode c)) := by
  have hmem : cabinCode c ∈ m.cabins.map cabinCode := List.mem_map_of_mem _ hc
  have hcur : lookupStr ((refreshMonitor m outbound ret now).1.currentCombined.getD [])
      (cabinCode c) =
      if cabinCode c ∈ m.cabins.map cabinCode ∧
          (cabinRecord outbound ret now (cabinCode c)).isSome
      then cabinRecord outbound ret now (cabinCode c)
      else none := by
    simp only [refreshMonitor, Option.getD_some]
    rw [foldCabins_current]
    rfl
  refine ⟨?_, ?_, ?_⟩
  · rw [hcur]
    cases hs : (cabinRecord outbound ret now (cabinCode c)).isSome with
    | true =>
        rw [if_pos ⟨hmem, rfl⟩]
        exact cabinRecord_isSome outbound ret now (cabinCode c)
    | false =>
        rw [if_neg (fun hh => by simp at hh)]
        rw [← cabinRecord_isSome outbound ret now (cabinCode c), hs]
        simp
  · intro r a b hr ha hb
    rw [hcur] at hr
    by_cases hs : cabinCode c ∈ m.cabins.map cabinCode ∧
        (cabinRecord outbound ret now (cabinCode c)).isSome
    · rw [if_pos hs] at hr
      exact cabinRecord_points outbound ret now (cabinCode c) r a b hr ha hb
    · rw [if_neg hs] at hr
      cases hr
  · intro hempty
    have hnone : cabinRecord outbound ret now (cabinCode c) = none := by
      unfold cabinRecord
      rcases hempty with h | h
      · rw [h]
        simp [bestBy]
      · rw [h]
        cases bestBy (fun f => f.MileageCost)
          (outbound.filter (fun f => f.cabin == cabinCode c)) <;> simp [bestBy]
    constructor
    · rw [hcur, if_neg]
      intro hh
      rw [hnone] at hh
      simp at hh
    · simp only [refreshMonitor, Option.getD_some]
      rw [foldCabins_lowest_preserved outbound ret now _ _ hnone]

/-- Claim C4, witness: with an empty return leg, no current business record
is produced and the stored lowest record is preserved. -/
theorem claim_C4_witness :
    lookupStr ((refreshMonitor mFixC9 [fFixOut] [] "t1").1.currentCombined.getD [])
      (cabinCode "business") = none ∧
    lookupStr ((refreshMonitor mFixC9 [fFixOut] [] "t1").1.lowestCombined.getD [])
      (cabinCode "business") =
      lookupStr (mFixC9.lowestCombined.getD []) (cabinCode "business") :=
  (claim_C4_combined_record mFixC9 [fFixOut] [] "t1" "business" (by decide)).2.2
    (Or.inr rfl)

/-- Claim C6: `normalizeFlights` emits an entry for a record and cabin pair
exactly when the mode-selected availability flag is truthy and the
mode-selected mileage cost is strictly positive, and every emitted entry is
the canonical record built from that pair — whose direct flag is true
exactly when the cabin-specific direct mileage cost is positive and equal to
the general mileage cost, and whose taxes are the raw minor-unit amount
divided by 100; the returned list is sorted ascending by date. -/
theorem claim_C6_normalize :
    (∀ (raw : List RawRecord) (cabins : List String) (availType : String)
        (e : NormalizedFlight),
      e ∈ normalizeFlights raw cabins availType ↔
        ∃ f ∈ raw, ∃ c ∈ cabins,
          jsTruthy (f.fields (cabinCode c ++ "Available" ++ availSuffix availType)) = true ∧
          0 < jsNumOr0 (f.fields (cabinCode c ++ "MileageCost" ++ availSuffix availType)) ∧
          e = mkNormalized f (cabinCode c) (availSuffix availType)) ∧
    (∀ (f : RawRecord) (code sfx : String),
      ((mkNormalized f code sfx).IsDirect = true ↔
        0 < jsNumOr0 (f.fields (code ++ "DirectMileageCost" ++ sfx)) ∧
        jsNumOr0 (f.fields (code ++ "DirectMileageCost" ++ sfx)) =
          jsNumOr0 (f.fields (code ++ "MileageCost" ++ sfx))) ∧
      (mkNormalized f code sfx).TotalTaxes =
        jsNumOr0 (f.fields (code ++ "TotalTaxes" ++ sfx)) / 100) ∧
    (∀ (raw : List RawRecord) (cabins : List String) (availType : String),
      List.Pairwise (fun a b : NormalizedFlight => a.Date ≤ b.Date)
        (normalizeFlights raw cabins availType)) := by
  refine ⟨?_, ?_, ?_⟩
  · intro raw cabins availType e
    simp only [normalizeFlights, List.mem_mergeSort, List.mem_flatMap,
      List.mem_filterMap, List.mem_map]
    constructor
    · rintro ⟨f, hf, code, ⟨c, hc, rfl⟩, hcond⟩
      rw [Option.ite_none_right_eq_some] at hcond
      obtain ⟨hp, he⟩ := hcond
      rw [Bool.and_eq_true, decide_eq_true_eq] at hp
      exact ⟨f, hf, c, hc, hp.1, hp.2, (Option.some.inj he).symm⟩
    · rintro ⟨f, hf, c, hc, ht, hm, rfl⟩
      refine ⟨f, hf, cabinCode c, ⟨c, hc, rfl⟩, ?_⟩
      rw [Option.ite_none_right_eq_some]
      refine ⟨?_, rfl⟩
      rw [Bool.and_eq_true, decide_eq_true_eq]
      exact ⟨ht, hm⟩
  · intro f code sfx
    constructor
    · simp [mkNormalized]
    · rfl
  · intro raw cabins availType
    have hs := @List.sorted_mergeSort NormalizedFlight
      (fun a b : NormalizedFlight => decide (a.Date ≤ b.Date))
      (fun a b c hab hbc => by
        rw [decide_eq_true_eq] at *
        exact le_trans hab hbc)
      (fun a b => by
        rw [Bool.or_eq_true, decide_eq_true_eq, decide_eq_true_eq]
        exact le_total a.Date b.Date)
      (raw.flatMap fun f =>
        (cabins.map cabinCode).filterMap fun code =>
          if jsTruthy (f.fields (code ++ "Available" ++ availSuffix availType))
              && decide (0 < jsNumOr0 (f.fields (code ++ "MileageCost" ++ availSuffix availType)))
          then some (mkNormalized f code (availSuffix availType))
          else none)
    exact hs.imp fun h => by
      rw [decide_eq_true_eq] at h
      exact h

/-- Claim C6, witness: the membership characterization instantiated at a
concrete raw record, cabin selection and entry. -/
theorem claim_C6_witness :
    mkNormalized rawFixC6 "J" "" ∈ normalizeFlights [rawFixC6] ["business"] "rewards" :=
  (claim_C6_normalize.1 [rawFixC6] ["business"] "rewards"
      (mkNormalized rawFixC6 "J" "")).mpr
    ⟨rawFixC6, List.mem_singleton_self _, "business", List.mem_singleton_self _,
     by decide, by decide, rfl⟩

end QantasDashboard
